import Mathlib

/-!
Verification development for the pnp-protocol/skills repository.

The repository consists of thin TypeScript wrapper scripts around the
`pnp-evm` SDK (create-market, trade, settle, redeem, lifecycle) plus the
documented local market registry and settlement-tracking protocol in
SKILL.md (the per-market JSON record files, the `markets/registry.json`
index, the agent workflow after creating a market, and the
`checkAndSettleDueMarkets` settlement scan).

This file gives a shallow embedding of that code:
- the external chain state is an association list from conditionId to a
  `ChainMarket` value (question, endTime, isSettled, winning outcome);
  the SDK's remote calls (`getMarketInfo`, `isResolved`,
  `getWinningToken`, `settleMarket`, `buy`, `sell`, `createMarket`) are
  modelled as pure lookups and updates on that list, with the
  transaction-submitting calls additionally recorded as events so that
  theorems can speak about which external calls a code path performs;
- the local `markets/` files are association lists from conditionId to
  `MarketRecord` plus an optional `Registry` value for
  `markets/registry.json`;
- exceptions (`throw new Error(...)` in the scripts) become `Except`
  values whose error constructors correspond one-to-one to the throw
  sites;
- remote calls are deterministic in this model: a read succeeds exactly
  when the market exists, and a transaction submission succeeds when the
  code reaches it (RPC failures and transaction reverts are environment
  behaviour, not logic of the scripts under verification).

Time (`Date.now() / 1000`) is an explicit `now : Nat` parameter.
-/

/-- Outcome of a binary prediction market, the `"YES" | "NO"` union type
used throughout the scripts. -/
inductive Outcome
  | YES
  | NO
deriving DecidableEq, Repr

/-- Lookup in a string-keyed association list (the model of a JS object /
directory of files keyed by conditionId or path). Returns the first
binding, mirroring map semantics. -/
def alLookup {α : Type} (l : List (String × α)) (k : String) : Option α :=
  (l.find? (fun kv => kv.1 == k)).map (fun kv => kv.2)

/-- Overwrite-or-create update of a string-keyed association list, the
model of `fs.writeFileSync` on a file keyed by its path, or of assigning
a field of a JS object. -/
def alSet {α : Type} (l : List (String × α)) (k : String) (v : α) : List (String × α) :=
  (k, v) :: l.filter (fun kv => !(kv.1 == k))

/-- Remove a key, the model of removing a file (used by the `rename`
crash model for the source path). -/
def alErase {α : Type} (l : List (String × α)) (k : String) : List (String × α) :=
  l.filter (fun kv => !(kv.1 == k))

/-! ## External chain state (the pnp-evm SDK boundary) -/

/-- On-chain state of one market, as observable through the SDK reads
used by the scripts: `getMarketInfo` (question, endTime), `isResolved`
(isSettled) and `getWinningToken` compared against
`getTokenId(conditionId, "YES")` (modelled as `winner`). -/
structure ChainMarket where
  question : String
  endTime : Nat
  isSettled : Bool
  winner : Option Outcome
deriving DecidableEq, Repr

/-- The chain: conditionId-keyed collection of markets. -/
def ChainDB : Type := List (String × ChainMarket)

instance : DecidableEq ChainDB := by
  unfold ChainDB
  infer_instance

/-- Chain read used by the embedding: `some m` when the market exists
(SDK reads succeed), `none` when it does not (the SDK fails with
"Market doesn't exist"). -/
def chainLookup (chain : ChainDB) (cid : String) : Option ChainMarket :=
  alLookup chain cid

/-- Effect on chain state of a successful `client.market.settleMarket`
transaction: the market becomes resolved with the given winning
outcome. -/
def chainSettle (chain : ChainDB) (cid : String) (o : Outcome) (m : ChainMarket) : ChainDB :=
  alSet chain cid { m with isSettled := true, winner := some o }

/-- Bool view of "this conditionId exists on chain and is settled". -/
def chainSettledB (chain : ChainDB) (cid : String) : Bool :=
  ((chainLookup chain cid).map (fun m => m.isSettled)).getD false

/-- External calls that submit transactions or write local files; the
embedding records them so that theorems can state which side effects a
code path performs and in what order. -/
inductive Ev
  | settleCall (cid : String)
  | recordWrite (cid : String)
  | registryWrite
  | createCall (cid : String)
  | buyCall (cid : String)
  | sellCall (cid : String)
deriving DecidableEq, Repr

/-! ## settle.ts: `getSettlementStatus` and `settleMarket` -/

/-- The error cases of settle.ts, one constructor per `throw` site:
`"conditionId is required"`, the SDK's failure on an unknown market,
`"Market is already settled. Winner: ..."` (carrying `status.winner`),
and `"Cannot settle yet. Trading ends in Hh Mm"` (carrying the two
time-left numbers interpolated into the message). The
`outcome must be YES or NO` throw is unreachable here because outcomes
are the typed `Outcome`. -/
inductive SettleError
  | missingConditionId
  | marketMissing
  | alreadySettled (winner : Option Outcome)
  | notDue (hoursLeft minutesLeft : Nat)
deriving DecidableEq, Repr

/-- Mirror of the `SettlementStatus` interface in settle.ts. -/
structure SettlementStatus where
  question : String
  endTime : Nat
  isSettled : Bool
  canSettle : Bool
  winner : Option Outcome
  timeLeftHours : Option Nat
  timeLeftMinutes : Option Nat
deriving DecidableEq, Repr

/-- The `winningToken === yesTokenId.toString() ? "YES" : "NO"`
computation of settle.ts (also used by redeem.ts). -/
def chainWinner (m : ChainMarket) : Outcome :=
  if m.winner = some Outcome.YES then Outcome.YES else Outcome.NO

/-- Embedding of `getSettlementStatus(client, conditionId)` from
settle.ts at time `now`: reads `getMarketInfo` and `isResolved`,
computes `canSettle = now >= endTime && !isSettled`, fills `winner` when
settled and the time-left fields when not yet due. -/
def getSettlementStatus (chain : ChainDB) (now : Nat) (cid : String) :
    Except SettleError SettlementStatus :=
  if cid = "" then Except.error SettleError.missingConditionId
  else
    match chainLookup chain cid with
    | none => Except.error SettleError.marketMissing
    | some m =>
      let base : SettlementStatus :=
        { question := m.question
          endTime := m.endTime
          isSettled := m.isSettled
          canSettle := decide (now ≥ m.endTime) && !m.isSettled
          winner := none
          timeLeftHours := none
          timeLeftMinutes := none }
      if m.isSettled then Except.ok { base with winner := some (chainWinner m) }
      else if now < m.endTime then
        Except.ok { base with
          timeLeftHours := some ((m.endTime - now) / 3600)
          timeLeftMinutes := some (((m.endTime - now) % 3600) / 60) }
      else Except.ok base

/-- Mirror of the `SettleResult` interface in settle.ts. -/
structure SettleResult where
  hash : String
  winner : Outcome
  conditionId : String
deriving DecidableEq, Repr

/-- Embedding of `settleMarket(client, { conditionId, outcome })` from
settle.ts at time `now`. Pre-flight: `getSettlementStatus`, then throw
if `status.isSettled`, then throw if `!status.canSettle`; only then is
the on-chain `client.market.settleMarket` transaction submitted
(recorded as `Ev.settleCall`), resolving the market with the given
outcome. Returns the settle.ts result, the updated chain, and the
submitted transactions. -/
def settleMarketE (chain : ChainDB) (now : Nat) (cid : String) (outcome : Outcome) :
    Except SettleError SettleResult × ChainDB × List Ev :=
  if cid = "" then (Except.error SettleError.missingConditionId, chain, [])
  else
    match getSettlementStatus chain now cid with
    | Except.error e => (Except.error e, chain, [])
    | Except.ok st =>
      if st.isSettled then
        (Except.error (SettleError.alreadySettled st.winner), chain, [])
      else if !st.canSettle then
        (Except.error
          (SettleError.notDue (st.timeLeftHours.getD 0) (st.timeLeftMinutes.getD 0)),
          chain, [])
      else
        match chainLookup chain cid with
        | none => (Except.error SettleError.marketMissing, chain, [])
        | some m =>
          (Except.ok { hash := "0xsettle" ++ cid, winner := outcome, conditionId := cid },
            chainSettle chain cid outcome m,
            [Ev.settleCall cid])

/-! ## Local `markets/` files: market records and the registry index -/

/-- The `settlement` block of a market record file
(`markets/<conditionId>.json`), exactly the fields written by the agent
workflow: initially all false/null, overwritten once by the settlement
scan. Timestamps are Unix seconds. -/
structure Settlement where
  isSettled : Bool
  settleTxHash : Option String
  winner : Option Outcome
  settledAt : Option Nat
deriving DecidableEq, Repr

/-- The `tradingRules` block of a market record file. -/
structure TradingRules where
  resolutionSource : String
  resolutionCriteria : String
  additionalNotes : String
deriving DecidableEq, Repr

/-- The `collateral` block of a market record file. -/
structure Collateral where
  symbol : String
  address : String
  decimals : Nat
deriving DecidableEq, Repr

/-- A `markets/<conditionId>.json` market record, as written in step 3
of the agent workflow after creating a market. -/
structure MarketRecord where
  conditionId : String
  question : String
  createdAt : Nat
  endTimeUnix : Nat
  collateral : Collateral
  initialLiquidity : String
  createTxHash : String
  tradingRules : TradingRules
  settlement : Settlement
deriving DecidableEq, Repr

/-- The record-file store: conditionIds to record files. -/
def RecDB : Type := List (String × MarketRecord)

instance : DecidableEq RecDB := by
  unfold RecDB
  infer_instance

/-- One element of the `markets` array of `markets/registry.json`. -/
structure RegistryEntry where
  conditionId : String
  question : String
  endTimeUnix : Nat
  isSettled : Bool
  winner : Option Outcome
deriving DecidableEq, Repr

/-- The parsed content of `markets/registry.json`. -/
structure Registry where
  markets : List RegistryEntry
deriving DecidableEq, Repr

/-- The `fs.existsSync(registryPath) ? JSON.parse(...) : { markets: [] }`
pattern of the agent workflow (step 4): a missing registry file is an
empty index. -/
def loadRegistry (file : Option Registry) : Registry :=
  file.getD { markets := [] }

/-- The registry update of agent workflow step 4: `registry.markets.push({...})`
followed by the write back — an unconditional append of the new entry. -/
def registryAppend (reg : Registry) (e : RegistryEntry) : Registry :=
  { markets := reg.markets ++ [e] }

/-- The entries the settlement scan acts on: the loop of
`checkAndSettleDueMarkets` skips an entry when `entry.isSettled` and
skips it when `entry.endTimeUnix > now`, so the due entries are the ones
kept by this filter, in index order. -/
def findDue (reg : Registry) (now : Nat) : List RegistryEntry :=
  reg.markets.filter (fun e => !e.isSettled && !(decide (now < e.endTimeUnix)))

/-! ## The settlement scan (`checkAndSettleDueMarkets` in SKILL.md) -/

/-- Errors that abort the scan: reading a missing
`markets/<conditionId>.json` (the `fs.readFileSync` throw), or a throw
out of `settleMarket` (the `await` rejection propagates out of the
loop — there is no try/catch around the loop body). -/
inductive ScanError
  | recordMissing (cid : String)
  | settleFailed (e : SettleError)
deriving DecidableEq, Repr

/-- Intermediate result of the scan loop over the registry entries. -/
structure LoopOut where
  err : Option ScanError
  chain : ChainDB
  records : RecDB
  entries : List RegistryEntry
  events : List Ev
  attempted : List String
deriving DecidableEq

/-- The record-file update the scan performs after a successful
settlement: `marketData.settlement = { isSettled: true, settleTxHash:
result.hash, winner, settledAt: ... }`. -/
def settleRecordUpdate (r0 : MarketRecord) (hash : String) (w : Outcome) (now : Nat) :
    MarketRecord :=
  { r0 with settlement :=
      { isSettled := true
        settleTxHash := some hash
        winner := some w
        settledAt := some now } }

/-- The `for (const entry of registry.markets)` loop of
`checkAndSettleDueMarkets`. For each entry: skip if `entry.isSettled`;
skip if `entry.endTimeUnix > now`; otherwise read the market record file
(throwing `recordMissing` if absent), call `settleMarket` with the
winner — hard-coded `"YES"` in the source, marked there as the agent
decision placeholder — and on success write the updated record file and
mutate the in-memory entry to `isSettled = true, winner`. A throw
anywhere aborts the loop: later entries are not visited and the final
registry write never happens. `entries` is the in-memory
`registry.markets` array after the loop (meaningful when `err = none`),
`events` the submitted transactions and file writes in order, and
`attempted` the conditionIds that reached the `settleMarket` call
site. -/
def scanLoop (now : Nat) (chain : ChainDB) (records : RecDB) :
    List RegistryEntry → LoopOut
  | [] => { err := none, chain := chain, records := records, entries := [],
            events := [], attempted := [] }
  | e :: rest =>
    if e.isSettled then
      let out := scanLoop now chain records rest
      { out with entries := e :: out.entries }
    else if now < e.endTimeUnix then
      let out := scanLoop now chain records rest
      { out with entries := e :: out.entries }
    else
      match alLookup records e.conditionId with
      | none =>
        { err := some (ScanError.recordMissing e.conditionId), chain := chain,
          records := records, entries := e :: rest, events := [],
          attempted := [e.conditionId] }
      | some r0 =>
        match settleMarketE chain now e.conditionId Outcome.YES with
        | (Except.error se, chain2, evs) =>
          { err := some (ScanError.settleFailed se), chain := chain2,
            records := records, entries := e :: rest, events := evs,
            attempted := [e.conditionId] }
        | (Except.ok res, chain2, evs) =>
          let records2 := alSet records e.conditionId
            (settleRecordUpdate r0 res.hash Outcome.YES now)
          let e2 := { e with isSettled := true, winner := some Outcome.YES }
          let out := scanLoop now chain2 records2 rest
          { err := out.err, chain := out.chain, records := out.records,
            entries := e2 :: out.entries,
            events := evs ++ [Ev.recordWrite e.conditionId] ++ out.events,
            attempted := e.conditionId :: out.attempted }

/-- The whole persistent state the scripts touch: the chain, the record
files, and `markets/registry.json` (`none` when the file does not
exist). -/
structure SysState where
  chain : ChainDB
  records : RecDB
  registry : Option Registry
deriving DecidableEq

/-- Result of one run of `checkAndSettleDueMarkets`. -/
structure ScanOut where
  err : Option ScanError
  state : SysState
  events : List Ev
  attempted : List String
deriving DecidableEq

/-- Embedding of `checkAndSettleDueMarkets()` at time `now`: return
immediately if the registry file does not exist; otherwise run the loop
over its entries; on normal completion write `registry.json` once with
the mutated in-memory array (`Ev.registryWrite`); if the loop threw, the
error propagates and the registry file is left as it was — only the
chain updates and record-file writes made before the throw survive. -/
def checkAndSettleDueMarkets (s : SysState) (now : Nat) : ScanOut :=
  match s.registry with
  | none => { err := none, state := s, events := [], attempted := [] }
  | some reg =>
    let out := scanLoop now s.chain s.records reg.markets
    match out.err with
    | none =>
      { err := none
        state := { chain := out.chain, records := out.records,
                   registry := some { markets := out.entries } }
        events := out.events ++ [Ev.registryWrite]
        attempted := out.attempted }
    | some er =>
      { err := some er
        state := { chain := out.chain, records := out.records, registry := s.registry }
        events := out.events
        attempted := out.attempted }

/-- State left behind when the scanning process crashes after processing
the first `k` registry entries and before the final registry write: the
chain updates and record writes of those entries are durable, the
registry file still holds its old content. -/
def scanCrashState (s : SysState) (now : Nat) (k : Nat) : SysState :=
  match s.registry with
  | none => s
  | some reg =>
    let out := scanLoop now s.chain s.records (reg.markets.take k)
    { chain := out.chain, records := out.records, registry := s.registry }

/-- The settle transactions among a list of recorded events. -/
def settleCallsOf (evs : List Ev) : List String :=
  evs.filterMap (fun e =>
    match e with
    | Ev.settleCall c => some c
    | _ => none)

/-! ## create-market.ts -/

/-- Numeric value of a list of decimal digit characters. -/
def digitsToNat (cs : List Char) : Nat :=
  cs.foldl (fun a c => a * 10 + (c.toNat - 48)) 0

/-- Exact value of a parsed decimal literal, kept unnormalised: the
represented rational is `num / 10 ^ pow10`. Keeping the power-of-ten
denominator explicit avoids rational-number normalisation, whose `gcd`
does not reduce in the kernel; `decNonPos_iff` below proves the sign
test agrees with the rational value. -/
structure DecValue where
  num : Int
  pow10 : Nat
deriving DecidableEq, Repr

/-- The value represented by a `DecValue`. -/
def DecValue.val (d : DecValue) : ℚ :=
  (d.num : ℚ) / (10 : ℚ) ^ d.pow10

/-- The comparison `parseFloat(s) <= 0` on a parsed decimal: since the
denominator is positive, the value is nonpositive exactly when the
numerator is. -/
def decNonPos (d : DecValue) : Bool :=
  decide (d.num ≤ 0)

/-- Model of JavaScript `parseFloat` on the plain decimal literals the
scripts deal in: an optional leading minus sign, an integer part, an
optional fractional part; trailing non-numeric characters are ignored as
`parseFloat` ignores them, and a string with no leading numeric part
gives `none` (`NaN`). Exponent notation, `Infinity`, leading whitespace
and a leading `+` are not used by any input in this development and are
not modelled. -/
def parseDecimal (s : String) : Option DecValue :=
  let signAndDigits : Bool × List Char :=
    match s.data with
    | '-' :: r => (true, r)
    | r => (false, r)
  let neg := signAndDigits.1
  let cs := signAndDigits.2
  let ip := cs.takeWhile Char.isDigit
  let r1 := cs.dropWhile Char.isDigit
  match r1 with
  | '.' :: r2 =>
    let fp := r2.takeWhile Char.isDigit
    if ip.isEmpty && fp.isEmpty then none
    else
      let mag : Int := (digitsToNat ip * 10 ^ fp.length + digitsToNat fp : Nat)
      some { num := if neg then -mag else mag, pow10 := fp.length }
  | _ =>
    if ip.isEmpty then none
    else
      let mag : Int := (digitsToNat ip : Nat)
      some { num := if neg then -mag else mag, pow10 := 0 }

/-- The `!s || parseFloat(s) <= 0` rejection test used on `liquidity` in
create-market.ts and on `amount` in trade.ts. Note the `NaN` semantics:
when `parseFloat` yields `NaN` every comparison is false, so an
unparseable non-empty string is not rejected by this test. -/
def amountRejected (s : String) : Bool :=
  s = "" || (parseDecimal s).elim false decNonPos

/-- The `TOKENS` record of create-market.ts: well-known collateral
tokens on Base mainnet, keyed by the literal property names of the
object — `"USDC"`, `"WETH"`, `"cbETH"`. -/
def TOKENS : List (String × String × Nat) :=
  [("USDC", "0x833589fCD6eDb6E08f4c7C32D4f71b54bdA02913", 6),
   ("WETH", "0x4200000000000000000000000000000000000006", 18),
   ("cbETH", "0x2Ae3F1Ec7F1F5012CFEab0185bfc7aa3cf0DEc22", 18)]

/-- JavaScript property access `TOKENS[key]`: case-sensitive exact match
against the object's keys, `undefined` (`none`) otherwise. -/
def tokensLookup (key : String) : Option (String × Nat) :=
  alLookup TOKENS key

/-- JavaScript `toUpperCase()` on the ASCII strings used as collateral
symbols: upper-case every character. -/
def jsToUpperCase (s : String) : String :=
  String.mk (s.data.map Char.toUpper)

/-- JavaScript `collateral.startsWith("0x")`. -/
def startsWith0x (s : String) : Bool :=
  match s.data with
  | '0' :: 'x' :: _ => true
  | _ => false

/-- Mirror of `CreateMarketParams` with the source's defaults
(`collateral = "USDC"`, `decimals` optional). `durationHours` is an
integer (every use in the repository passes whole hours). -/
structure CreateMarketParams where
  question : String
  durationHours : Int
  liquidity : String
  collateral : String := "USDC"
  decimals : Option Nat := none

/-- Mirror of `CreateMarketResult`. -/
structure CreateMarketResult where
  conditionId : String
  hash : String
  endTime : Nat
deriving DecidableEq, Repr

/-- The error cases of `createMarket`, one constructor per throw site:
`"question is required"`, `"durationHours must be positive"`,
`"liquidity must be positive"`, and
`Unknown token "..." . Use USDC, WETH, cbETH, or a 0x contract address.`
(carrying the offending collateral string). -/
inductive CreateError
  | questionRequired
  | durationNotPositive
  | liquidityNotPositive
  | unknownToken (sym : String)
deriving DecidableEq, Repr

/-- Embedding of `createMarket(client, params)` from create-market.ts at
time `now`. Validation order as in the source: question, durationHours
(`!durationHours || durationHours <= 0`), liquidity
(`!liquidity || parseFloat(liquidity) <= 0`); then collateral
resolution: `TOKENS[collateral.toUpperCase()]`, else a `0x` prefix
passes the string through as an address, else throw. Only after all of
that is the on-chain `client.market.createMarket` call made (recorded as
`Ev.createCall`); the chain assigns the conditionId, supplied here as
`freshCid`. The wei conversion of the liquidity amount does not affect
control flow and is not modelled. -/
def createMarket (now : Nat) (freshCid : String) (p : CreateMarketParams) :
    Except CreateError CreateMarketResult × List Ev :=
  if p.question = "" then (Except.error CreateError.questionRequired, [])
  else if p.durationHours ≤ 0 then (Except.error CreateError.durationNotPositive, [])
  else if amountRejected p.liquidity then (Except.error CreateError.liquidityNotPositive, [])
  else
    match tokensLookup (jsToUpperCase p.collateral) with
    | some _ =>
      let endTime := now + p.durationHours.toNat * 3600
      (Except.ok { conditionId := freshCid, hash := "0xcreate" ++ freshCid, endTime := endTime },
        [Ev.createCall freshCid])
    | none =>
      if startsWith0x p.collateral then
        let endTime := now + p.durationHours.toNat * 3600
        (Except.ok { conditionId := freshCid, hash := "0xcreate" ++ freshCid, endTime := endTime },
          [Ev.createCall freshCid])
      else
        (Except.error (CreateError.unknownToken p.collateral), [])

/-! ## trade.ts: `buyTokens` and `sellTokens` -/

/-- Mirror of `TradeParams` (the `decimals` and `minOut` fields do not
affect control flow before the trade call and are omitted). -/
structure TradeParamsE where
  conditionId : String
  outcome : Outcome
  amount : String

/-- The error cases of `buyTokens` / `sellTokens`, one constructor per
throw site: `"conditionId is required"`, `"amount must be positive"`,
the SDK failure on an unknown market, `"Market trading period has
ended"`, and `"Market is already settled"`. The
`outcome must be YES or NO` throw is unreachable with the typed
`Outcome`. -/
inductive TradeError
  | missingConditionId
  | amountNotPositive
  | marketMissing
  | tradingEnded
  | alreadySettled
deriving DecidableEq, Repr

/-- Embedding of `buyTokens(client, params)` from trade.ts at time
`now`: parameter validation, then the pre-flight `getMarketInfo` check —
throw `"Market trading period has ended"` when `now >= endTime`, throw
`"Market is already settled"` when `info.isSettled` — and only then the
on-chain `client.trading.buy` call (recorded as `Ev.buyCall`). -/
def buyTokens (chain : ChainDB) (now : Nat) (p : TradeParamsE) :
    Except TradeError String × List Ev :=
  if p.conditionId = "" then (Except.error TradeError.missingConditionId, [])
  else if amountRejected p.amount then (Except.error TradeError.amountNotPositive, [])
  else
    match chainLookup chain p.conditionId with
    | none => (Except.error TradeError.marketMissing, [])
    | some m =>
      if now ≥ m.endTime then (Except.error TradeError.tradingEnded, [])
      else if m.isSettled then (Except.error TradeError.alreadySettled, [])
      else (Except.ok ("0xbuy" ++ p.conditionId), [Ev.buyCall p.conditionId])

/-- Embedding of `sellTokens(client, params)` from trade.ts at time
`now`: identical validation and pre-flight checks to `buyTokens`, then
the on-chain `client.trading.sell` call (recorded as `Ev.sellCall`). -/
def sellTokens (chain : ChainDB) (now : Nat) (p : TradeParamsE) :
    Except TradeError String × List Ev :=
  if p.conditionId = "" then (Except.error TradeError.missingConditionId, [])
  else if amountRejected p.amount then (Except.error TradeError.amountNotPositive, [])
  else
    match chainLookup chain p.conditionId with
    | none => (Except.error TradeError.marketMissing, [])
    | some m =>
      if now ≥ m.endTime then (Except.error TradeError.tradingEnded, [])
      else if m.isSettled then (Except.error TradeError.alreadySettled, [])
      else (Except.ok ("0xsell" ++ p.conditionId), [Ev.sellCall p.conditionId])

/-! ## File-system model for the registry save (claim C5)

The agent workflow and the scan both persist the registry with a single
`fs.writeFileSync(registryPath, JSON.stringify(registry, null, 2))`.
To state atomicity claims we model a file system as an association list
from path to content string, the operation sequence a save performs, and
the standard crash semantics of POSIX-style file operations: a crash can
strike before an operation, during a `write` (leaving any prefix of the
new content in the file, since `writeFileSync` truncates then writes),
or between operations; `rename` is atomic (all or nothing). -/

/-- A file system: paths to contents. -/
def FS : Type := List (String × String)

instance : DecidableEq FS := by
  unfold FS
  infer_instance

/-- File operations performed by a save routine. -/
inductive FsOp
  | write (path content : String)
  | rename (src dst : String)
deriving DecidableEq, Repr

/-- Completed effect of one operation. A `rename` with a missing source
is a no-op here (the pattern under study never hits that case). -/
def applyFsOp (fs : FS) : FsOp → FS
  | FsOp.write p c => alSet fs p c
  | FsOp.rename src dst =>
    match alLookup fs src with
    | none => fs
    | some c => alSet (alErase fs src) dst c

/-- The file-system states observable if the process dies while this
single operation is in flight (including not-yet-started). -/
def duringOp (fs : FS) : FsOp → List FS
  | FsOp.write p c =>
    fs :: (List.range (c.length + 1)).map (fun k => alSet fs p (c.take k))
  | FsOp.rename src dst => [fs, applyFsOp fs (FsOp.rename src dst)]

/-- All file-system states reachable if the process crashes at any point
while executing the operation sequence (the final state, crash at the
very end, included). -/
def crashStates (fs : FS) : List FsOp → List FS
  | [] => [fs]
  | op :: rest => duringOp fs op ++ crashStates (applyFsOp fs op) rest

/-- Path of the registry index file. -/
def registryPath : String := "markets/registry.json"

/-- A JSON string literal for the plain identifier-like strings used in
the registry (no quote, backslash or control characters, so no escaping
arises). -/
def jsStr (s : String) : String := "\"" ++ s ++ "\""

/-- The `winner` field as serialised by `JSON.stringify`: `null`, or the
outcome string. -/
def jsWinner : Option Outcome → String
  | none => "null"
  | some Outcome.YES => jsStr "YES"
  | some Outcome.NO => jsStr "NO"

/-- One registry entry as laid out by `JSON.stringify(registry, null, 2)`
at depth 2 (four-space indent for the object, six for its fields). -/
def stringifyEntry (e : RegistryEntry) : String :=
  "    \x7b\n      " ++ jsStr "conditionId" ++ ": " ++ jsStr e.conditionId ++ ",\n      " ++
    jsStr "question" ++ ": " ++ jsStr e.question ++ ",\n      " ++
    jsStr "endTimeUnix" ++ ": " ++ toString e.endTimeUnix ++ ",\n      " ++
    jsStr "isSettled" ++ ": " ++ (if e.isSettled then "true" else "false") ++ ",\n      " ++
    jsStr "winner" ++ ": " ++ jsWinner e.winner ++ "\n    \x7d"

/-- `JSON.stringify(registry, null, 2)`: the exact text the scripts
write to `markets/registry.json`. -/
def stringifyRegistry (reg : Registry) : String :=
  match reg.markets with
  | [] => "\x7b\n  " ++ jsStr "markets" ++ ": []\n\x7d"
  | es => "\x7b\n  " ++ jsStr "markets" ++ ": [\n" ++
      String.intercalate ",\n" (es.map stringifyEntry) ++ "\n  ]\n\x7d"

/-- The operation sequence the repository's code performs to save the
registry: one direct in-place `fs.writeFileSync` of the full serialised
index — no temporary file, no rename. -/
def saveRegistryOps (reg : Registry) : List FsOp :=
  [FsOp.write registryPath (stringifyRegistry reg)]

/-- Path of the temporary file in the atomic-save pattern. -/
def registryTmpPath : String := "markets/registry.json.tmp"

/-- Modelled from the spec: the save discipline the specification
requires of `save(index)` — "write to a temporary location and
atomically replace" — which is not implemented anywhere in the
repository. Kept for comparison against `saveRegistryOps`. -/
def atomicSaveOpsSpec (reg : Registry) : List FsOp :=
  [FsOp.write registryTmpPath (stringifyRegistry reg),
   FsOp.rename registryTmpPath registryPath]

/-! ## The market lifecycle as a transition system (agent workflow) -/

/-- The settlement block a record is created with (agent workflow step
2): `{ isSettled: false, settleTxHash: null, winner: null, settledAt:
null }`. -/
def initialSettlement : Settlement :=
  { isSettled := false, settleTxHash := none, winner := none, settledAt := none }

/-- The record file written in agent workflow step 3, immediately after
a successful `createMarket` call. -/
def initialMarketRecord (cid q : String) (createdAt endT : Nat) (liq : String)
    (tr : TradingRules) : MarketRecord :=
  { conditionId := cid
    question := q
    createdAt := createdAt
    endTimeUnix := endT
    collateral := { symbol := "USDC",
                    address := "0x833589fCD6eDb6E08f4c7C32D4f71b54bdA02913", decimals := 6 }
    initialLiquidity := liq
    createTxHash := "0xcreate" ++ cid
    tradingRules := tr
    settlement := initialSettlement }

/-- The index row pushed in agent workflow step 4. -/
def newRegistryEntry (cid q : String) (endT : Nat) : RegistryEntry :=
  { conditionId := cid, question := q, endTimeUnix := endT, isSettled := false, winner := none }

/-- Combined effect of the agent workflow after `createMarket` succeeds:
the chain gains the new unsettled market, step 3 writes the record file,
step 4 loads (or defaults) the registry, pushes the new row, and writes
it back. -/
def applyCreate (s : SysState) (cid q : String) (now durH : Nat) (liq : String)
    (tr : TradingRules) : SysState :=
  { chain := alSet s.chain cid
      { question := q, endTime := now + durH * 3600, isSettled := false, winner := none }
    records := alSet s.records cid
      (initialMarketRecord cid q now (now + durH * 3600) liq tr)
    registry := some (registryAppend (loadRegistry s.registry)
      (newRegistryEntry cid q (now + durH * 3600))) }

/-- The observable state transitions of the lifecycle: market creation
(with a chain-assigned fresh conditionId), a completed settlement scan,
and a scan interrupted by a crash after `k` entries (before the final
registry write). -/
inductive SysStep : SysState → SysState → Prop
  | create (s : SysState) (cid q liq : String) (tr : TradingRules) (now durH : Nat)
      (hchain : chainLookup s.chain cid = none)
      (hrec : alLookup s.records cid = none) :
      SysStep s (applyCreate s cid q now durH liq tr)
  | scanStep (s : SysState) (now : Nat) :
      SysStep s (checkAndSettleDueMarkets s now).state
  | scanCrash (s : SysState) (now k : Nat) :
      SysStep s (scanCrashState s now k)

/-- States reachable from a fresh install (no chain markets, no record
files, no registry file) by the lifecycle operations. -/
inductive ReachableSys : SysState → Prop
  | init : ReachableSys { chain := [], records := [], registry := none }
  | step {s s' : SysState} : ReachableSys s → SysStep s s' → ReachableSys s'

/-- The record-level invariant claimed for `settlement`: the winner is
null exactly while the record is unsettled. -/
def recordOK (r : MarketRecord) : Prop :=
  r.settlement.winner = none ↔ r.settlement.isSettled = false

/-- All record files of a state satisfy `recordOK`. -/
def recordsOK (s : SysState) : Prop :=
  ∀ cid r, alLookup s.records cid = some r → recordOK r

/-- The `settleCall c, recordWrite c` pairs a scan emits, one pair per
successfully settled market, in order. -/
def evChunks : List String → List Ev
  | [] => []
  | c :: cs => Ev.settleCall c :: Ev.recordWrite c :: evChunks cs

def regC3 : Registry :=
  { markets := [{ conditionId := "0xabc", question := "Q1", endTimeUnix := 1000,
                  isSettled := false, winner := none }] }

def sysC3 : SysState :=
  { chain := [("0xabc", { question := "Q1", endTime := 1000, isSettled := false, winner := none })]
    records := [("0xabc", initialMarketRecord "0xabc" "Q1" 100 1000 "100"
      { resolutionSource := "src", resolutionCriteria := "crit", additionalNotes := "" })]
    registry := some regC3 }

def mC6 : ChainMarket :=
  { question := "Q", endTime := 3000, isSettled := false, winner := none }

def chainC6 : ChainDB := [("0xabc", mC6)]

def mC9 : ChainMarket :=
  { question := "Q", endTime := 3000, isSettled := true, winner := some Outcome.YES }

def chainC9 : ChainDB := [("0xdef", mC9)]

def pC9 : TradeParamsE := { conditionId := "0xdef", outcome := Outcome.NO, amount := "10" }

def regC10 : Registry :=
  { markets := [{ conditionId := "0xabc", question := "Q1", endTimeUnix := 1000,
                  isSettled := false, winner := none }] }

def sysC10 : SysState :=
  { chain := [("0xabc", { question := "Q1", endTime := 1000, isSettled := false, winner := none })]
    records := [("0xabc", initialMarketRecord "0xabc" "Q1" 100 1000 "100"
      { resolutionSource := "src", resolutionCriteria := "crit", additionalNotes := "" })]
    registry := some regC10 }

def mC1 : ChainMarket :=
  { question := "Q", endTime := 1000, isSettled := true, winner := some Outcome.YES }

def chainC1 : ChainDB := [("0xabc", mC1)]

def sysC1w : SysState := { chain := chainC1, records := [], registry := some { markets := [] } }

def eC1 : RegistryEntry :=
  { conditionId := "0xabc", question := "Q", endTimeUnix := 1000, isSettled := true,
    winner := some Outcome.YES }

def sC1 : SysState :=
  { chain := chainC1, records := [], registry := some { markets := [eC1] } }

def recC4 : MarketRecord :=
  { conditionId := "0xabc", question := "Q", createdAt := 100, endTimeUnix := 1000
    collateral := { symbol := "USDC",
                    address := "0x833589fCD6eDb6E08f4c7C32D4f71b54bdA02913", decimals := 6 }
    initialLiquidity := "100", createTxHash := "0xcreate0xabc"
    tradingRules := { resolutionSource := "src", resolutionCriteria := "crit",
                      additionalNotes := "" }
    settlement := { isSettled := true, settleTxHash := some "0xsettle0xabc",
                    winner := some Outcome.YES, settledAt := some 1500 } }

def eC4 : RegistryEntry :=
  { conditionId := "0xabc", question := "Q", endTimeUnix := 1000, isSettled := false,
    winner := none }

def mC4 : ChainMarket :=
  { question := "Q", endTime := 1000, isSettled := true, winner := some Outcome.YES }

def sC4 : SysState :=
  { chain := [("0xabc", mC4)], records := [("0xabc", recC4)]
    registry := some { markets := [eC4] } }

def trC8 : TradingRules :=
  { resolutionSource := "src", resolutionCriteria := "crit", additionalNotes := "" }

def sysInitC8 : SysState := { chain := [], records := [], registry := none }

def sysAfterCreateC8 : SysState := applyCreate sysInitC8 "0xabc" "Q" 100 168 "100" trC8

def regC5old : Registry := { markets := [] }

def eC5 : RegistryEntry :=
  { conditionId := "0xabc", question := "Q1", endTimeUnix := 1000, isSettled := false,
    winner := none }

def regC5new : Registry := { markets := [eC5] }

def fsC5 : FS := [(registryPath, stringifyRegistry regC5old)]

theorem alLookup_alSet_same {α : Type} (l : List (String × α)) (k : String) (v : α) :
    alLookup (alSet l k v) k = some v := by
  simp [alLookup, alSet, List.find?]

theorem find?_filter_ne {α : Type} (l : List (String × α)) (k k' : String) (h : k' ≠ k) :
    (l.filter (fun kv => !(kv.1 == k))).find? (fun kv => kv.1 == k') =
      l.find? (fun kv => kv.1 == k') := by
  induction l with
  | nil => simp
  | cons x xs ih =>
    by_cases hx : x.1 = k
    · have hx' : (x.1 == k') = false := by
        apply beq_false_of_ne
        intro hc
        exact h (hc ▸ hx ▸ rfl)
      have hk : (x.1 == k) = true := beq_iff_eq.mpr hx
      simp [List.filter_cons, List.find?, hk, hx', ih]
    · have hk : (x.1 == k) = false := beq_false_of_ne hx
      by_cases hy : x.1 = k'
      · have hk' : (x.1 == k') = true := beq_iff_eq.mpr hy
        simp [List.filter_cons, List.find?, hk, hk']
      · have hk' : (x.1 == k') = false := beq_false_of_ne hy
        simp [List.filter_cons, List.find?, hk, hk', ih]

theorem alLookup_alSet_other {α : Type} (l : List (String × α)) (k k' : String) (v : α)
    (h : k' ≠ k) : alLookup (alSet l k v) k' = alLookup l k' := by
  have hne : (k == k') = false := beq_false_of_ne (fun hc => h hc.symm)
  simp [alLookup, alSet, List.find?, hne, find?_filter_ne l k k' h]

theorem alLookup_alErase_other {α : Type} (l : List (String × α)) (k k' : String)
    (h : k' ≠ k) : alLookup (alErase l k) k' = alLookup l k' := by
  simp [alLookup, alErase, find?_filter_ne l k k' h]

/-! ### Characterisation of `settleMarketE` by chain state -/

theorem settleMarketE_empty_cid (chain : ChainDB) (now : Nat) (o : Outcome) :
    settleMarketE chain now "" o =
      (Except.error SettleError.missingConditionId, chain, []) := by
  simp [settleMarketE]

theorem settleMarketE_missing (chain : ChainDB) (now : Nat) (cid : String) (o : Outcome)
    (h0 : cid ≠ "") (hm : chainLookup chain cid = none) :
    settleMarketE chain now cid o = (Except.error SettleError.marketMissing, chain, []) := by
  simp [settleMarketE, getSettlementStatus, h0, hm]

theorem settleMarketE_settled (chain : ChainDB) (now : Nat) (cid : String) (o : Outcome)
    (m : ChainMarket) (h0 : cid ≠ "") (hm : chainLookup chain cid = some m)
    (hs : m.isSettled = true) :
    settleMarketE chain now cid o =
      (Except.error (SettleError.alreadySettled (some (chainWinner m))), chain, []) := by
  simp [settleMarketE, getSettlementStatus, h0, hm, hs]

theorem settleMarketE_notDue (chain : ChainDB) (now : Nat) (cid : String) (o : Outcome)
    (m : ChainMarket) (h0 : cid ≠ "") (hm : chainLookup chain cid = some m)
    (hs : m.isSettled = false) (hd : now < m.endTime) :
    settleMarketE chain now cid o =
      (Except.error (SettleError.notDue ((m.endTime - now) / 3600) (((m.endTime - now) % 3600) / 60)),
        chain, []) := by
  have hge : ¬ (now ≥ m.endTime) := Nat.not_le.mpr hd
  simp [settleMarketE, getSettlementStatus, h0, hm, hs, hd, hge]

theorem settleMarketE_success (chain : ChainDB) (now : Nat) (cid : String) (o : Outcome)
    (m : ChainMarket) (h0 : cid ≠ "") (hm : chainLookup chain cid = some m)
    (hs : m.isSettled = false) (hd : now ≥ m.endTime) :
    settleMarketE chain now cid o =
      (Except.ok { hash := "0xsettle" ++ cid, winner := o, conditionId := cid },
        chainSettle chain cid o m, [Ev.settleCall cid]) := by
  have hlt : ¬ (now < m.endTime) := Nat.not_lt.mpr hd
  simp [settleMarketE, getSettlementStatus, h0, hm, hs, hd, hlt]

/-- Case split: `settleMarketE` either fails, leaving the chain
untouched and submitting no transaction, or the market exists unsettled
and it submits exactly one settle transaction, resolving the market. -/
theorem settleMarketE_cases (chain : ChainDB) (now : Nat) (cid : String) (o : Outcome) :
    (∃ e, settleMarketE chain now cid o = (Except.error e, chain, [])) ∨
    (∃ m, chainLookup chain cid = some m ∧ m.isSettled = false ∧ now ≥ m.endTime ∧ cid ≠ "" ∧
      settleMarketE chain now cid o =
        (Except.ok { hash := "0xsettle" ++ cid, winner := o, conditionId := cid },
          chainSettle chain cid o m, [Ev.settleCall cid])) := by
  by_cases h0 : cid = ""
  · subst h0
    exact Or.inl ⟨_, settleMarketE_empty_cid chain now o⟩
  · rcases hm : chainLookup chain cid with _ | m
    · exact Or.inl ⟨_, settleMarketE_missing chain now cid o h0 hm⟩
    · by_cases hs : m.isSettled
      · exact Or.inl ⟨_, settleMarketE_settled chain now cid o m h0 hm hs⟩
      · by_cases hd : now < m.endTime
        · exact Or.inl ⟨_, settleMarketE_notDue chain now cid o m h0 hm (by simp [hs]) hd⟩
        · exact Or.inr ⟨m, hm ▸ rfl, by simp [hs], Nat.not_lt.mp hd, h0,
            settleMarketE_success chain now cid o m h0 hm (by simp [hs]) (Nat.not_lt.mp hd)⟩

/-- If the market is already settled on chain (or the conditionId is
degenerate), `settleMarketE` fails before submitting the settle
transaction and leaves the chain unchanged. -/
theorem settleMarketE_chainSettled (chain : ChainDB) (now : Nat) (cid : String) (o : Outcome)
    (h : chainSettledB chain cid = true) :
    ∃ e, settleMarketE chain now cid o = (Except.error e, chain, []) := by
  rcases settleMarketE_cases chain now cid o with he | ⟨m, hm, hs, _, _, _⟩
  · exact he
  · exfalso
    rw [chainSettledB, hm] at h
    simp [hs] at h

theorem decNonPos_iff (d : DecValue) : decNonPos d = true ↔ d.val ≤ 0 := by
  have hp : (0 : ℚ) < (10 : ℚ) ^ d.pow10 := by positivity
  rw [decNonPos, decide_eq_true_iff, DecValue.val, div_nonpos_iff]
  constructor
  · intro h
    exact Or.inr ⟨Int.cast_nonpos.mpr h, le_of_lt hp⟩
  · intro h
    rcases h with ⟨_, h2⟩ | ⟨h1, _⟩
    · exact absurd h2 (not_le.mpr hp)
    · exact Int.cast_nonpos.mp h1

theorem take_mem_duringOp (fs : FS) (p c : String) (k : Nat) (h : k ≤ c.length) :
    alSet fs p (c.take k) ∈ duringOp fs (FsOp.write p c) := by
  apply List.mem_cons_of_mem
  exact List.mem_map.mpr ⟨k, List.mem_range.mpr (Nat.lt_succ_of_le h), rfl⟩

/-- Helper: a partially-written file (any prefix of the new content) is
a crash-reachable state of a direct in-place write. -/
theorem take_mem_crashStates (fs : FS) (p c : String) (k : Nat) (rest : List FsOp)
    (h : k ≤ c.length) :
    alSet fs p (c.take k) ∈ crashStates fs (FsOp.write p c :: rest) := by
  unfold crashStates
  exact List.mem_append_left _ (take_mem_duringOp fs p c k h)

/-! ### Record-store facts about the scan loop -/

theorem scanLoop_records_lookup (now : Nat) (rest : List RegistryEntry) :
    ∀ chain records cid r',
      alLookup (scanLoop now chain records rest).records cid = some r' →
      alLookup records cid = some r' ∨
        (r'.settlement.isSettled = true ∧ r'.settlement.winner = some Outcome.YES) := by
  induction rest with
  | nil =>
    intro chain records cid r' h
    simp [scanLoop] at h
    exact Or.inl h
  | cons e rest ih =>
    intro chain records cid r' h
    by_cases h1 : e.isSettled
    · rw [scanLoop] at h
      simp [h1] at h
      exact ih chain records cid r' h
    · by_cases h2 : now < e.endTimeUnix
      · rw [scanLoop] at h
        simp [h1, h2] at h
        exact ih chain records cid r' h
      · rcases hrec : alLookup records e.conditionId with _ | r0
        · rw [scanLoop] at h
          simp [h1, h2, hrec] at h
          exact Or.inl h
        · rcases hsm : settleMarketE chain now e.conditionId Outcome.YES with ⟨res, chain2, evs⟩
          rcases res with se | ok
          · rw [scanLoop] at h
            simp [h1, h2, hrec, hsm] at h
            exact Or.inl h
          · rw [scanLoop] at h
            simp [h1, h2, hrec, hsm] at h
            rcases ih _ _ cid r' h with hin | hset
            · by_cases hcid : cid = e.conditionId
              · subst hcid
                rw [alLookup_alSet_same] at hin
                refine Or.inr ?_
                cases hin
                simp [settleRecordUpdate]
              · rw [alLookup_alSet_other _ _ _ _ hcid] at hin
                exact Or.inl hin
            · exact Or.inr hset

/-! ### Chain facts about the scan loop -/

theorem chainSettledB_chainSettle_same (chain : ChainDB) (c : String) (o : Outcome)
    (m : ChainMarket) : chainSettledB (chainSettle chain c o m) c = true := by
  simp [chainSettledB, chainSettle, chainLookup, alLookup_alSet_same]

theorem chainSettledB_chainSettle_other (chain : ChainDB) (c c' : String) (o : Outcome)
    (m : ChainMarket) (h : c' ≠ c) :
    chainSettledB (chainSettle chain c o m) c' = chainSettledB chain c' := by
  simp [chainSettledB, chainSettle, chainLookup, alLookup_alSet_other _ _ _ _ h]

/-- A market settled on chain before the scan stays settled, and the
scan never submits a settle transaction for it. -/
theorem scanLoop_chainSettled (now : Nat) (rest : List RegistryEntry) :
    ∀ chain records cid, chainSettledB chain cid = true →
      chainSettledB (scanLoop now chain records rest).chain cid = true ∧
        Ev.settleCall cid ∉ (scanLoop now chain records rest).events := by
  induction rest with
  | nil =>
    intro chain records cid h
    simp [scanLoop, h]
  | cons e rest ih =>
    intro chain records cid h
    by_cases h1 : e.isSettled
    · rw [scanLoop]
      simp only [h1, if_true]
      exact ih chain records cid h
    · by_cases h2 : now < e.endTimeUnix
      · rw [scanLoop]
        simp only [h1, if_false, h2, if_true, Bool.false_eq_true]
        exact ih chain records cid h
      · rcases hrec : alLookup records e.conditionId with _ | r0
        · rw [scanLoop]
          simp [h1, h2, hrec, h]
        · rcases settleMarketE_cases chain now e.conditionId Outcome.YES with
            ⟨se, heq⟩ | ⟨m, hm, hs, hd, h0, heq⟩
          · rw [scanLoop]
            simp [h1, h2, hrec, heq, h]
          · have hne : cid ≠ e.conditionId := by
              intro hc
              subst hc
              rw [chainSettledB, chainLookup] at h
              rw [chainLookup] at hm
              rw [hm] at h
              simp [hs] at h
            have hpres : chainSettledB (chainSettle chain e.conditionId Outcome.YES m) cid = true := by
              rw [chainSettledB_chainSettle_other _ _ _ _ _ hne]
              exact h
            rcases ih (chainSettle chain e.conditionId Outcome.YES m)
              (alSet records e.conditionId
                (settleRecordUpdate r0 ("0xsettle" ++ e.conditionId) Outcome.YES now))
              cid hpres with ⟨ihc, ihe⟩
            rw [scanLoop]
            simp only [h1, if_false, h2, Bool.false_eq_true, hrec, heq]
            refine ⟨ihc, ?_⟩
            intro hmem
            have hsplit : Ev.settleCall cid = Ev.settleCall e.conditionId ∨
                Ev.settleCall cid = Ev.recordWrite e.conditionId ∨
                Ev.settleCall cid ∈ (scanLoop now (chainSettle chain e.conditionId Outcome.YES m)
                  (alSet records e.conditionId
                    (settleRecordUpdate r0 ("0xsettle" ++ e.conditionId) Outcome.YES now))
                  rest).events := by
              simpa using hmem
            rcases hsplit with hc | hc | hc
            · injection hc with h3
              exact hne h3
            · exact Ev.noConfusion hc
            · exact ihe hc

theorem registryWrite_not_mem_evChunks (cids : List String) :
    Ev.registryWrite ∉ evChunks cids := by
  induction cids with
  | nil => simp [evChunks]
  | cons c cs ih =>
    simp [evChunks]
    exact ih

/-- The loop's event list consists exactly of `settleCall`/`recordWrite`
pairs: every record write directly follows its market's settle
transaction, and the loop itself never writes the registry. -/
theorem scanLoop_events_shape (now : Nat) (rest : List RegistryEntry) :
    ∀ chain records, ∃ cids,
      (scanLoop now chain records rest).events = evChunks cids := by
  induction rest with
  | nil =>
    intro chain records
    exact ⟨[], by simp [scanLoop, evChunks]⟩
  | cons e rest ih =>
    intro chain records
    by_cases h1 : e.isSettled
    · rw [scanLoop]
      simp only [h1, if_true]
      exact ih chain records
    · by_cases h2 : now < e.endTimeUnix
      · rw [scanLoop]
        simp only [h1, if_false, h2, if_true, Bool.false_eq_true]
        exact ih chain records
      · rcases hrec : alLookup records e.conditionId with _ | r0
        · rw [scanLoop]
          simp [h1, h2, hrec]
          exact ⟨[], by simp [evChunks]⟩
        · rcases settleMarketE_cases chain now e.conditionId Outcome.YES with
            ⟨se, heq⟩ | ⟨m, hm, hs, hd, h0, heq⟩
          · rw [scanLoop]
            simp [h1, h2, hrec, heq]
            exact ⟨[], by simp [evChunks]⟩
          · rcases ih (chainSettle chain e.conditionId Outcome.YES m)
              (alSet records e.conditionId
                (settleRecordUpdate r0 ("0xsettle" ++ e.conditionId) Outcome.YES now)) with
              ⟨cids, hcids⟩
            rw [scanLoop]
            simp only [h1, if_false, h2, Bool.false_eq_true, hrec, heq]
            exact ⟨e.conditionId :: cids, by simp [evChunks, hcids]⟩

/-- After a loop run that completed without a throw, every entry of the
in-memory registry array is settled or not yet due. -/
theorem scanLoop_entries_settled (now : Nat) (rest : List RegistryEntry) :
    ∀ chain records, (scanLoop now chain records rest).err = none →
      ∀ e' ∈ (scanLoop now chain records rest).entries,
        e'.isSettled = true ∨ now < e'.endTimeUnix := by
  induction rest with
  | nil =>
    intro chain records _ e' hmem
    simp [scanLoop] at hmem
  | cons e rest ih =>
    intro chain records herr e' hmem
    by_cases h1 : e.isSettled
    · rw [scanLoop] at herr hmem
      simp only [h1, if_true] at herr hmem
      rcases List.mem_cons.mp hmem with hc | hc
      · exact Or.inl (hc ▸ h1)
      · exact ih chain records herr e' hc
    · by_cases h2 : now < e.endTimeUnix
      · rw [scanLoop] at herr hmem
        simp only [h1, if_false, h2, if_true, Bool.false_eq_true] at herr hmem
        rcases List.mem_cons.mp hmem with hc | hc
        · exact Or.inr (hc ▸ h2)
        · exact ih chain records herr e' hc
      · rcases hrec : alLookup records e.conditionId with _ | r0
        · rw [scanLoop] at herr
          simp [h1, h2, hrec] at herr
        · rcases settleMarketE_cases chain now e.conditionId Outcome.YES with
            ⟨se, heq⟩ | ⟨m, hm, hs, hd, h0, heq⟩
          · rw [scanLoop] at herr
            simp [h1, h2, hrec, heq] at herr
          · rw [scanLoop] at herr hmem
            simp only [h1, if_false, h2, Bool.false_eq_true, hrec, heq] at herr hmem
            rcases List.mem_cons.mp hmem with hc | hc
            · subst hc
              exact Or.inl rfl
            · exact ih _ _ herr e' hc

/-- A loop over entries that are all settled or not yet due does
nothing: no error, no chain change, no writes, no attempts, and the
in-memory array is untouched. -/
theorem scanLoop_all_skip (now : Nat) (rest : List RegistryEntry)
    (h : ∀ e ∈ rest, e.isSettled = true ∨ now < e.endTimeUnix) :
    ∀ chain records,
      scanLoop now chain records rest =
        { err := none, chain := chain, records := records, entries := rest,
          events := [], attempted := [] } := by
  induction rest with
  | nil =>
    intro chain records
    simp [scanLoop]
  | cons e rest ih =>
    intro chain records
    have he := h e (List.mem_cons_self e rest)
    have htail : ∀ e' ∈ rest, e'.isSettled = true ∨ now < e'.endTimeUnix :=
      fun e' hm => h e' (List.mem_cons_of_mem e hm)
    rcases he with h1 | h2
    · rw [scanLoop]
      simp [h1, ih htail chain records]
    · by_cases h1 : e.isSettled
      · rw [scanLoop]
        simp [h1, ih htail chain records]
      · rw [scanLoop]
        simp [h1, h2, ih htail chain records]

/-- On a clean run, the conditionIds for which the loop reached the
`settleMarket` call site are exactly the due entries — unsettled, past
end time — in index order. -/
theorem scanLoop_attempted (now : Nat) (rest : List RegistryEntry) :
    ∀ chain records, (scanLoop now chain records rest).err = none →
      (scanLoop now chain records rest).attempted =
        (rest.filter (fun e => !e.isSettled && !(decide (now < e.endTimeUnix)))).map
          (fun e => e.conditionId) := by
  induction rest with
  | nil =>
    intro chain records _
    simp [scanLoop]
  | cons e rest ih =>
    intro chain records herr
    by_cases h1 : e.isSettled
    · rw [scanLoop] at herr ⊢
      simp only [h1, if_true] at herr ⊢
      simp [List.filter_cons, h1]
      exact ih chain records herr
    · by_cases h2 : now < e.endTimeUnix
      · rw [scanLoop] at herr ⊢
        simp only [h1, if_false, h2, if_true, Bool.false_eq_true] at herr ⊢
        simp [List.filter_cons, h1, h2]
        exact ih chain records herr
      · rcases hrec : alLookup records e.conditionId with _ | r0
        · rw [scanLoop] at herr
          simp [h1, h2, hrec] at herr
        · rcases settleMarketE_cases chain now e.conditionId Outcome.YES with
            ⟨se, heq⟩ | ⟨m, hm, hs, hd, h0, heq⟩
          · rw [scanLoop] at herr
            simp [h1, h2, hrec, heq] at herr
          · rw [scanLoop] at herr ⊢
            simp only [h1, if_false, h2, Bool.false_eq_true, hrec, heq] at herr ⊢
            simp [List.filter_cons, h1, h2]
            exact ih _ _ herr

/-- If some registry entry is recorded unsettled and due while its
market is already settled on chain, the scan run throws (it cannot get
past that entry). -/
theorem scanLoop_stale_err (now : Nat) (rest : List RegistryEntry) :
    ∀ chain records e, e ∈ rest → e.isSettled = false → e.endTimeUnix ≤ now →
      chainSettledB chain e.conditionId = true →
      (scanLoop now chain records rest).err ≠ none := by
  induction rest with
  | nil =>
    intro chain records e hmem
    simp at hmem
  | cons x rest ih =>
    intro chain records e hmem hus hdue hcs
    rcases List.mem_cons.mp hmem with hex | hmem'
    · subst hex
      have h1 : ¬ (e.isSettled = true) := by simp [hus]
      have h2 : ¬ (now < e.endTimeUnix) := Nat.not_lt.mpr hdue
      rcases hrec : alLookup records e.conditionId with _ | r0
      · rw [scanLoop]
        simp [h1, h2, hrec]
      · rcases settleMarketE_chainSettled chain now e.conditionId Outcome.YES hcs with ⟨se, heq⟩
        rw [scanLoop]
        simp [h1, h2, hrec, heq]
    · by_cases h1 : x.isSettled
      · rw [scanLoop]
        simp only [h1, if_true]
        exact ih chain records e hmem' hus hdue hcs
      · by_cases h2 : now < x.endTimeUnix
        · rw [scanLoop]
          simp only [h1, if_false, h2, if_true, Bool.false_eq_true]
          exact ih chain records e hmem' hus hdue hcs
        · rcases hrec : alLookup records x.conditionId with _ | r0
          · rw [scanLoop]
            simp [h1, h2, hrec]
          · rcases settleMarketE_cases chain now x.conditionId Outcome.YES with
              ⟨se, heq⟩ | ⟨m, hm, hs, hd, h0, heq⟩
            · rw [scanLoop]
              simp [h1, h2, hrec, heq]
            · have hcs2 : chainSettledB (chainSettle chain x.conditionId Outcome.YES m)
                  e.conditionId = true := by
                by_cases hcc : e.conditionId = x.conditionId
                · rw [hcc]
                  exact chainSettledB_chainSettle_same chain x.conditionId Outcome.YES m
                · rw [chainSettledB_chainSettle_other _ _ _ _ _ hcc]
                  exact hcs
              rw [scanLoop]
              simp only [h1, if_false, h2, Bool.false_eq_true, hrec, heq]
              exact ih _ _ e hmem' hus hdue hcs2

/-! ## Claim theorems -/

/-- Claim C3: for every index and every `now`, `findDue` returns exactly
the entries with `isSettled == false` and `endTimeUnix <= now` — never
an entry with `endTimeUnix > now` or `isSettled == true` — in index
(insertion) order; and on a clean run the settlement scan attempts
settlement of exactly those entries in that order. -/
theorem findDue_exact_and_ordered :
    (∀ (reg : Registry) (now : Nat) (e : RegistryEntry),
      e ∈ findDue reg now ↔
        (e ∈ reg.markets ∧ e.isSettled = false ∧ e.endTimeUnix ≤ now)) ∧
    (∀ (reg : Registry) (now : Nat), List.Sublist (findDue reg now) reg.markets) ∧
    (∀ (s : SysState) (now : Nat) (reg : Registry), s.registry = some reg →
      (checkAndSettleDueMarkets s now).err = none →
      (checkAndSettleDueMarkets s now).attempted =
        (findDue reg now).map (fun e => e.conditionId)) := by
  refine ⟨?_, ?_, ?_⟩
  · intro reg now e
    simp [findDue, List.mem_filter, Nat.not_lt, and_assoc]
  · intro reg now
    exact List.filter_sublist _
  · intro s now reg hreg herr
    rw [checkAndSettleDueMarkets, hreg] at herr ⊢
    rcases hout : (scanLoop now s.chain s.records reg.markets).err with _ | er
    · simp only [hout] at herr ⊢
      simpa [findDue] using scanLoop_attempted now reg.markets s.chain s.records hout
    · simp [hout] at herr

/-- Witness for the hypotheses of `findDue_exact_and_ordered` at a
concrete one-market state whose scan completes cleanly. -/
theorem findDue_exact_and_ordered_witness :
    (sysC3.registry = some regC3 ∧ (checkAndSettleDueMarkets sysC3 2000).err = none) ∧
    (checkAndSettleDueMarkets sysC3 2000).attempted =
      (findDue regC3 2000).map (fun e => e.conditionId) :=
  ⟨⟨rfl, by decide⟩, findDue_exact_and_ordered.2.2 sysC3 2000 regC3 rfl (by decide)⟩

/-- Claim C6: invoking `settleMarket` on an unsettled market whose end
time is still in the future fails with the not-due error (the
`"Cannot settle yet"` throw, carrying the remaining hours and minutes)
before any settle transaction is submitted, and leaves the chain
unchanged. -/
theorem settle_notDue_before_chain_call (chain : ChainDB) (now : Nat) (cid : String)
    (o : Outcome) (m : ChainMarket) (h0 : cid ≠ "") (hm : chainLookup chain cid = some m)
    (hs : m.isSettled = false) (hd : now < m.endTime) :
    (settleMarketE chain now cid o).1 =
      Except.error (SettleError.notDue ((m.endTime - now) / 3600)
        (((m.endTime - now) % 3600) / 60)) ∧
    (settleMarketE chain now cid o).2.2 = [] ∧
    (settleMarketE chain now cid o).2.1 = chain := by
  rw [settleMarketE_notDue chain now cid o m h0 hm hs hd]
  exact ⟨rfl, rfl, rfl⟩

/-- Witness: scenario D of the specification — `endTimeUnix = 3000`,
`now = 2000` — fails not-due (16 minutes left) with no settle
transaction. -/
theorem settle_notDue_before_chain_call_witness :
    ("0xabc" ≠ "" ∧ chainLookup chainC6 "0xabc" = some mC6 ∧ mC6.isSettled = false ∧
      2000 < mC6.endTime) ∧
    ((settleMarketE chainC6 2000 "0xabc" Outcome.YES).1 =
      Except.error (SettleError.notDue ((mC6.endTime - 2000) / 3600)
        (((mC6.endTime - 2000) % 3600) / 60)) ∧
     (settleMarketE chainC6 2000 "0xabc" Outcome.YES).2.2 = [] ∧
     (settleMarketE chainC6 2000 "0xabc" Outcome.YES).2.1 = chainC6) :=
  ⟨⟨by decide, rfl, rfl, by decide⟩,
    settle_notDue_before_chain_call chainC6 2000 "0xabc" Outcome.YES mC6
      (by decide) rfl rfl (by decide)⟩

/-- Claim C9: `buyTokens` and `sellTokens` both run the pre-flight
market check before any trade transaction: with valid parameters, if the
current time has reached the market's end time they throw
`"Market trading period has ended"`, otherwise if the market is settled
they throw `"Market is already settled"`, and in either case no trade
transaction is submitted. -/
theorem trade_preflight_blocks (chain : ChainDB) (now : Nat) (p : TradeParamsE)
    (m : ChainMarket) (h0 : p.conditionId ≠ "") (ha : amountRejected p.amount = false)
    (hm : chainLookup chain p.conditionId = some m)
    (h : now ≥ m.endTime ∨ m.isSettled = true) :
    ((buyTokens chain now p).1 =
      Except.error (if now ≥ m.endTime then TradeError.tradingEnded
        else TradeError.alreadySettled) ∧
     (buyTokens chain now p).2 = []) ∧
    ((sellTokens chain now p).1 =
      Except.error (if now ≥ m.endTime then TradeError.tradingEnded
        else TradeError.alreadySettled) ∧
     (sellTokens chain now p).2 = []) := by
  by_cases hend : now ≥ m.endTime
  · simp [buyTokens, sellTokens, h0, ha, hm, hend]
  · rcases h with h | h
    · exact absurd h hend
    · simp [buyTokens, sellTokens, h0, ha, hm, hend, h]

/-- Witness: buying or selling on an already-settled market (end time
not yet reached) is rejected with the settled error and submits no
trade. -/
theorem trade_preflight_blocks_witness :
    (pC9.conditionId ≠ "" ∧ amountRejected pC9.amount = false ∧
      chainLookup chainC9 pC9.conditionId = some mC9 ∧
      (2000 ≥ mC9.endTime ∨ mC9.isSettled = true)) ∧
    (((buyTokens chainC9 2000 pC9).1 =
        Except.error (if 2000 ≥ mC9.endTime then TradeError.tradingEnded
          else TradeError.alreadySettled) ∧
      (buyTokens chainC9 2000 pC9).2 = []) ∧
     ((sellTokens chainC9 2000 pC9).1 =
        Except.error (if 2000 ≥ mC9.endTime then TradeError.tradingEnded
          else TradeError.alreadySettled) ∧
      (sellTokens chainC9 2000 pC9).2 = [])) :=
  ⟨⟨by decide, by decide, rfl, Or.inr rfl⟩,
    trade_preflight_blocks chainC9 2000 pC9 mC9 (by decide) (by decide) rfl (Or.inr rfl)⟩

/-- Claim C2 (amended): the registry update of the agent workflow is an
unconditional append — every existing entry is preserved unchanged in
place (the old array is a prefix of the new one, so nothing is
overwritten) and the new entry lands at the end, growing the index by
exactly one. No duplicate check is performed. -/
theorem registryAppend_appends_never_overwrites (reg : Registry) (e : RegistryEntry) :
    List.IsPrefix reg.markets (registryAppend reg e).markets ∧
    (registryAppend reg e).markets.getLast? = some e ∧
    (registryAppend reg e).markets.length = reg.markets.length + 1 := by
  refine ⟨⟨[e], rfl⟩, ?_, ?_⟩
  · simp [registryAppend]
  · simp [registryAppend]

/-- Claim C2 counterexample: appending an entry whose conditionId is
already present in the index does not fail with a duplicate error — the
code has no duplicate check, so the push succeeds and the index ends up
holding two entries with that conditionId. -/
theorem registryAppend_duplicate_not_rejected :
    (registryAppend
        { markets := [{ conditionId := "0xabc", question := "Q1", endTimeUnix := 1000,
                        isSettled := false, winner := none }] }
        { conditionId := "0xabc", question := "Q1 again", endTimeUnix := 2000,
          isSettled := false, winner := none }).markets.countP
      (fun x => x.conditionId == "0xabc") = 2 := by
  decide

/-- Claim C7: concrete evaluations of `createMarket`. An unknown symbol
like `"DOGE"` and every other invalid input (empty question,
non-positive duration, non-positive liquidity) are rejected with the
corresponding validation throw before the on-chain creation call; a
known symbol in any letter case reaching `"USDC"`/`"WETH"` after
upper-casing is accepted — but the third documented symbol `"cbETH"` is
rejected as an unknown token, because
`TOKENS[collateral.toUpperCase()]` looks up the key `"CBETH"`, which is
not a property of the `TOKENS` object (its keys are `USDC`, `WETH`,
`cbETH`), contradicting both the claim and the script's own
documentation and error message. -/
theorem createMarket_validation_eval :
    createMarket 1000 "0xc1"
        { question := "Q", durationHours := 168, liquidity := "100", collateral := "DOGE" } =
      (Except.error (CreateError.unknownToken "DOGE"), []) ∧
    createMarket 1000 "0xc1"
        { question := "", durationHours := 168, liquidity := "100" } =
      (Except.error CreateError.questionRequired, []) ∧
    createMarket 1000 "0xc1"
        { question := "Q", durationHours := 0, liquidity := "100" } =
      (Except.error CreateError.durationNotPositive, []) ∧
    createMarket 1000 "0xc1"
        { question := "Q", durationHours := 168, liquidity := "0" } =
      (Except.error CreateError.liquidityNotPositive, []) ∧
    createMarket 1000 "0xc1"
        { question := "Q", durationHours := 168, liquidity := "-5" } =
      (Except.error CreateError.liquidityNotPositive, []) ∧
    createMarket 1000 "0xc1"
        { question := "Q", durationHours := 168, liquidity := "100", collateral := "usdc" } =
      (Except.ok { conditionId := "0xc1", hash := "0xcreate0xc1", endTime := 1000 + 168 * 3600 },
        [Ev.createCall "0xc1"]) ∧
    createMarket 1000 "0xc1"
        { question := "Q", durationHours := 168, liquidity := "100",
          collateral := "0x1234deadbeef" } =
      (Except.ok { conditionId := "0xc1", hash := "0xcreate0xc1", endTime := 1000 + 168 * 3600 },
        [Ev.createCall "0xc1"]) ∧
    createMarket 1000 "0xc1"
        { question := "Q", durationHours := 168, liquidity := "100", collateral := "cbETH" } =
      (Except.error (CreateError.unknownToken "cbETH"), []) ∧
    createMarket 1000 "0xc1"
        { question := "Q", durationHours := 168, liquidity := "100", collateral := "cbeth" } =
      (Except.error (CreateError.unknownToken "cbeth"), []) :=
  ⟨rfl, rfl, rfl, rfl, rfl, rfl, rfl, rfl, rfl⟩

/-- Claim C10: the write discipline of one scan run — its event list
consists of `settleCall`/`recordWrite` pairs, each record-file write
immediately after that market's successful settle transaction, followed
by exactly one registry write if and only if the loop completed; when
the run aborts mid-loop there is no registry write at all and
`registry.json` keeps its old content, so the index updates accumulated
in memory are lost. -/
theorem scan_write_discipline (s : SysState) (now : Nat) (reg : Registry)
    (hreg : s.registry = some reg) :
    ∃ cids,
      (checkAndSettleDueMarkets s now).events =
        evChunks cids ++
          (if (checkAndSettleDueMarkets s now).err = none then [Ev.registryWrite] else []) ∧
      ((checkAndSettleDueMarkets s now).err ≠ none →
        (checkAndSettleDueMarkets s now).state.registry = s.registry) := by
  rw [checkAndSettleDueMarkets, hreg]
  rcases scanLoop_events_shape now reg.markets s.chain s.records with ⟨cids, hcids⟩
  rcases hout : (scanLoop now s.chain s.records reg.markets).err with _ | er
  · refine ⟨cids, ?_, ?_⟩
    · simp [hout, hcids]
    · simp [hout]
  · refine ⟨cids, ?_, ?_⟩
    · simp [hout, hcids]
    · simp [hout, hreg]

/-- Witness for `scan_write_discipline` at a concrete one-market
state. -/
theorem scan_write_discipline_witness :
    sysC10.registry = some regC10 ∧
    ∃ cids,
      (checkAndSettleDueMarkets sysC10 2000).events =
        evChunks cids ++
          (if (checkAndSettleDueMarkets sysC10 2000).err = none then [Ev.registryWrite] else []) ∧
      ((checkAndSettleDueMarkets sysC10 2000).err ≠ none →
        (checkAndSettleDueMarkets sysC10 2000).state.registry = sysC10.registry) :=
  ⟨rfl, scan_write_discipline sysC10 2000 regC10 rfl⟩

/-- A clean scan leaves the system in a state where an immediately
repeated scan at the same time does nothing: it completes without error
and submits no settle transaction (every due entry was marked settled in
the index by the first run). -/
theorem scan_rescan_clean (s : SysState) (now : Nat)
    (herr : (checkAndSettleDueMarkets s now).err = none) :
    (checkAndSettleDueMarkets (checkAndSettleDueMarkets s now).state now).err = none ∧
    settleCallsOf (checkAndSettleDueMarkets (checkAndSettleDueMarkets s now).state now).events
      = [] := by
  rcases hreg : s.registry with _ | reg
  · have h1 : checkAndSettleDueMarkets s now =
        { err := none, state := s, events := [], attempted := [] } := by
      rw [checkAndSettleDueMarkets, hreg]
    rw [h1]
    dsimp only
    rw [h1]
    simp [settleCallsOf]
  · rw [checkAndSettleDueMarkets, hreg] at herr
    rcases hout : (scanLoop now s.chain s.records reg.markets).err with _ | er
    · have hstate : (checkAndSettleDueMarkets s now).state =
          { chain := (scanLoop now s.chain s.records reg.markets).chain
            records := (scanLoop now s.chain s.records reg.markets).records
            registry := some { markets := (scanLoop now s.chain s.records reg.markets).entries } }
          := by
        rw [checkAndSettleDueMarkets, hreg]
        simp [hout]
      have hsettled := scanLoop_entries_settled now reg.markets s.chain s.records hout
      have hskip := scanLoop_all_skip now (scanLoop now s.chain s.records reg.markets).entries
        hsettled (scanLoop now s.chain s.records reg.markets).chain
        (scanLoop now s.chain s.records reg.markets).records
      rw [hstate, checkAndSettleDueMarkets]
      simp only [hskip]
      simp [settleCallsOf]
    · simp [hout] at herr

/-- Claim C1 (amended): at-most-once settlement. A `settleMarket` call
on a market already settled on chain fails with the already-settled
error without submitting a settle transaction and without touching the
chain; and after a scan run completes cleanly, an immediately repeated
scan at the same time completes without error and submits no settle
transaction for any conditionId, so duplicate scanner runs cause no
double on-chain settlement call. (The scan reaches `settleMarket` only
for entries the index shows unsettled; an index entry with
`isSettled = true` is skipped silently by the loop rather than raising
an error.) -/
theorem settlement_at_most_once :
    (∀ (chain : ChainDB) (now : Nat) (cid : String) (o : Outcome) (m : ChainMarket),
      cid ≠ "" → chainLookup chain cid = some m → m.isSettled = true →
        (settleMarketE chain now cid o).1 =
          Except.error (SettleError.alreadySettled (some (chainWinner m))) ∧
        (settleMarketE chain now cid o).2.2 = [] ∧
        (settleMarketE chain now cid o).2.1 = chain) ∧
    (∀ (s : SysState) (now : Nat),
      (checkAndSettleDueMarkets s now).err = none →
        (checkAndSettleDueMarkets (checkAndSettleDueMarkets s now).state now).err = none ∧
        settleCallsOf
          (checkAndSettleDueMarkets (checkAndSettleDueMarkets s now).state now).events = []) := by
  constructor
  · intro chain now cid o m h0 hm hs
    rw [settleMarketE_settled chain now cid o m h0 hm hs]
    exact ⟨rfl, rfl, rfl⟩
  · intro s now herr
    exact scan_rescan_clean s now herr

/-- Witness for both hypotheses of `settlement_at_most_once`: a settled
concrete market, and a state whose first scan completes cleanly. -/
theorem settlement_at_most_once_witness :
    (("0xabc" ≠ "" ∧ chainLookup chainC1 "0xabc" = some mC1 ∧ mC1.isSettled = true) ∧
      (checkAndSettleDueMarkets sysC1w 2000).err = none) ∧
    (((settleMarketE chainC1 2000 "0xabc" Outcome.NO).1 =
        Except.error (SettleError.alreadySettled (some (chainWinner mC1))) ∧
      (settleMarketE chainC1 2000 "0xabc" Outcome.NO).2.2 = [] ∧
      (settleMarketE chainC1 2000 "0xabc" Outcome.NO).2.1 = chainC1) ∧
     ((checkAndSettleDueMarkets (checkAndSettleDueMarkets sysC1w 2000).state 2000).err = none ∧
      settleCallsOf
        (checkAndSettleDueMarkets (checkAndSettleDueMarkets sysC1w 2000).state 2000).events
        = [])) :=
  ⟨⟨⟨by decide, rfl, rfl⟩, by decide⟩,
   ⟨settlement_at_most_once.1 chainC1 2000 "0xabc" Outcome.NO mC1 (by decide) rfl rfl,
    settlement_at_most_once.2 sysC1w 2000 (by decide)⟩⟩

/-- Claim C1 counterexample: a second settlement attempt on a market
whose index entry has `isSettled = true` does not fail with an
already-settled error — the scan run skips the entry silently,
completes without any error, and its only event is the final registry
write. -/
theorem settlement_skip_not_fail :
    (checkAndSettleDueMarkets sC1 2000).err = none ∧
    (checkAndSettleDueMarkets sC1 2000).events = [Ev.registryWrite] := by
  decide

/-- Claim C4 (amended): after a crash that left the record and chain
settled but the index entry unsettled, the next scan never re-invokes
the settle transaction for a conditionId that is already settled on
chain; but it does not repair the index: an aborted scan leaves
`registry.json` exactly as it was and performs no registry write, and a
stale due entry of this kind always aborts the scan (the detection is
the `settleMarket` pre-flight read of on-chain state, not of the
record's settlement fields). -/
theorem crash_recovery_no_resettle :
    (∀ (s : SysState) (now : Nat) (cid : String),
      chainSettledB s.chain cid = true →
        Ev.settleCall cid ∉ (checkAndSettleDueMarkets s now).events) ∧
    (∀ (s : SysState) (now : Nat),
      (checkAndSettleDueMarkets s now).err ≠ none →
        (checkAndSettleDueMarkets s now).state.registry = s.registry ∧
        Ev.registryWrite ∉ (checkAndSettleDueMarkets s now).events) ∧
    (∀ (s : SysState) (now : Nat) (reg : Registry) (e : RegistryEntry),
      s.registry = some reg → e ∈ reg.markets → e.isSettled = false →
      e.endTimeUnix ≤ now → chainSettledB s.chain e.conditionId = true →
        (checkAndSettleDueMarkets s now).err ≠ none) := by
  refine ⟨?_, ?_, ?_⟩
  · intro s now cid h
    rcases hreg : s.registry with _ | reg
    · simp [checkAndSettleDueMarkets, hreg]
    · have hmain := scanLoop_chainSettled now reg.markets s.chain s.records cid h
      rcases hout : (scanLoop now s.chain s.records reg.markets).err with _ | er
      · rw [checkAndSettleDueMarkets, hreg]
        simp only [hout]
        intro hmem
        rcases List.mem_append.mp hmem with hc | hc
        · exact hmain.2 hc
        · simp at hc
      · rw [checkAndSettleDueMarkets, hreg]
        simp only [hout]
        exact hmain.2
  · intro s now hne
    rcases hreg : s.registry with _ | reg
    · rw [checkAndSettleDueMarkets, hreg] at hne
      simp at hne
    · rcases hout : (scanLoop now s.chain s.records reg.markets).err with _ | er
      · rw [checkAndSettleDueMarkets, hreg] at hne
        simp [hout] at hne
      · constructor
        · rw [checkAndSettleDueMarkets, hreg]
          simp [hout]
        · rcases scanLoop_events_shape now reg.markets s.chain s.records with ⟨cids, hc⟩
          rw [checkAndSettleDueMarkets, hreg]
          simp only [hout, hc]
          exact registryWrite_not_mem_evChunks cids
  · intro s now reg e hreg hmem hus hdue hcs
    rcases hout : (scanLoop now s.chain s.records reg.markets).err with _ | er
    · exact absurd hout (scanLoop_stale_err now reg.markets s.chain s.records e hmem hus hdue hcs)
    · rw [checkAndSettleDueMarkets, hreg]
      simp [hout]

/-- Witness for `crash_recovery_no_resettle` at the concrete
crashed-between-the-two-persists state. -/
theorem crash_recovery_no_resettle_witness :
    (chainSettledB sC4.chain "0xabc" = true ∧
     (checkAndSettleDueMarkets sC4 2000).err ≠ none ∧
     sC4.registry = some { markets := [eC4] }) ∧
    (Ev.settleCall "0xabc" ∉ (checkAndSettleDueMarkets sC4 2000).events ∧
     ((checkAndSettleDueMarkets sC4 2000).state.registry = sC4.registry ∧
      Ev.registryWrite ∉ (checkAndSettleDueMarkets sC4 2000).events) ∧
     (checkAndSettleDueMarkets sC4 2000).err ≠ none) :=
  ⟨⟨rfl, by decide, rfl⟩,
   ⟨crash_recovery_no_resettle.1 sC4 2000 "0xabc" rfl,
    crash_recovery_no_resettle.2.1 sC4 2000 (by decide),
    crash_recovery_no_resettle.2.2 sC4 2000 { markets := [eC4] } eC4
      rfl (by decide) rfl (by decide) rfl⟩⟩

/-- Claim C4 counterexample: at the crashed state (record and chain
settled, index entry unsettled and due), the next scan does not repair
the index entry — it aborts with the already-settled throw, leaves
`registry.json` with the stale unsettled entry, and submits no settle
transaction. -/
theorem crash_recovery_does_not_repair :
    (checkAndSettleDueMarkets sC4 2000).err =
      some (ScanError.settleFailed (SettleError.alreadySettled (some Outcome.YES))) ∧
    (checkAndSettleDueMarkets sC4 2000).state.registry = some { markets := [eC4] } ∧
    settleCallsOf (checkAndSettleDueMarkets sC4 2000).events = [] := by
  decide

/-- Every lifecycle step preserves the record invariant, and never
un-settles a record: a record that reads settled before a step still
reads settled after it. -/
theorem sysStep_preserves_records (s s' : SysState) (hstep : SysStep s s')
    (hok : recordsOK s) :
    recordsOK s' ∧
    (∀ cid r r', alLookup s.records cid = some r → alLookup s'.records cid = some r' →
      r.settlement.isSettled = true → r'.settlement.isSettled = true) := by
  cases hstep with
  | create cid q liq tr now durH hchain hrec =>
    constructor
    · intro c r hl
      by_cases hc : c = cid
      · subst hc
        have : (applyCreate s c q now durH liq tr).records = alSet s.records c
            (initialMarketRecord c q now (now + durH * 3600) liq tr) := rfl
        rw [this, alLookup_alSet_same] at hl
        cases hl
        simp [recordOK, initialMarketRecord, initialSettlement]
      · have : (applyCreate s cid q now durH liq tr).records = alSet s.records cid
            (initialMarketRecord cid q now (now + durH * 3600) liq tr) := rfl
        rw [this, alLookup_alSet_other _ _ _ _ hc] at hl
        exact hok c r hl
    · intro c r r' h1 h2 hset
      by_cases hc : c = cid
      · subst hc
        rw [hrec] at h1
        cases h1
      · have : (applyCreate s cid q now durH liq tr).records = alSet s.records cid
            (initialMarketRecord cid q now (now + durH * 3600) liq tr) := rfl
        rw [this, alLookup_alSet_other _ _ _ _ hc] at h2
        rw [h1] at h2
        cases h2
        exact hset
  | scanStep now =>
    rcases hreg : s.registry with _ | reg
    · have hst : (checkAndSettleDueMarkets s now).state = s := by
        rw [checkAndSettleDueMarkets, hreg]
      rw [hst]
      exact ⟨hok, fun c r r' h1 h2 hset => by rw [h1] at h2; cases h2; exact hset⟩
    · have hst : (checkAndSettleDueMarkets s now).state.records =
          (scanLoop now s.chain s.records reg.markets).records := by
        rw [checkAndSettleDueMarkets, hreg]
        rcases hout : (scanLoop now s.chain s.records reg.markets).err with _ | er <;>
          simp [hout]
      constructor
      · intro c r' hl
        rw [hst] at hl
        rcases scanLoop_records_lookup now reg.markets s.chain s.records c r' hl with
          hold | ⟨hs, hw⟩
        · exact hok c r' hold
        · rw [recordOK, hs, hw]
          simp
      · intro c r r' h1 h2 hset
        rw [hst] at h2
        rcases scanLoop_records_lookup now reg.markets s.chain s.records c r' h2 with
          hold | ⟨hs, _⟩
        · rw [h1] at hold
          cases hold
          exact hset
        · exact hs
  | scanCrash now k =>
    rcases hreg : s.registry with _ | reg
    · have hst : scanCrashState s now k = s := by
        rw [scanCrashState, hreg]
      rw [hst]
      exact ⟨hok, fun c r r' h1 h2 hset => by rw [h1] at h2; cases h2; exact hset⟩
    · have hst : (scanCrashState s now k).records =
          (scanLoop now s.chain s.records (reg.markets.take k)).records := by
        rw [scanCrashState, hreg]
      constructor
      · intro c r' hl
        rw [hst] at hl
        rcases scanLoop_records_lookup now (reg.markets.take k) s.chain s.records c r' hl with
          hold | ⟨hs, hw⟩
        · exact hok c r' hold
        · rw [recordOK, hs, hw]
          simp
      · intro c r r' h1 h2 hset
        rw [hst] at h2
        rcases scanLoop_records_lookup now (reg.markets.take k) s.chain s.records c r' h2 with
          hold | ⟨hs, _⟩
        · rw [h1] at hold
          cases hold
          exact hset
        · exact hs

/-- Every reachable state satisfies the record invariant. -/
theorem reachable_recordsOK (s : SysState) (h : ReachableSys s) : recordsOK s := by
  induction h with
  | init =>
    intro cid r hl
    simp [alLookup] at hl
  | step hr hstep ih =>
    exact (sysStep_preserves_records _ _ hstep ih).1

/-- Claim C8: across all lifecycle operations from a fresh install,
every market record satisfies `winner = null ↔ isSettled = false`, and
`settlement.isSettled` never reverts from true to false — it flips false
to true at most once (the single settlement update), in every reachable
state and across every step. -/
theorem record_settlement_invariant (s s' : SysState) (hr : ReachableSys s)
    (hstep : SysStep s s') :
    (∀ cid r, alLookup s.records cid = some r → recordOK r) ∧
    (∀ cid r, alLookup s'.records cid = some r → recordOK r) ∧
    (∀ cid r r', alLookup s.records cid = some r → alLookup s'.records cid = some r' →
      r.settlement.isSettled = true → r'.settlement.isSettled = true) := by
  have h1 := reachable_recordsOK s hr
  have h2 := sysStep_preserves_records s s' hstep h1
  exact ⟨h1, h2.1, h2.2⟩

/-- Witness for `record_settlement_invariant`: the initial state and a
first market creation. -/
theorem record_settlement_invariant_witness :
    (ReachableSys sysInitC8 ∧ SysStep sysInitC8 sysAfterCreateC8) ∧
    ((∀ cid r, alLookup sysInitC8.records cid = some r → recordOK r) ∧
     (∀ cid r, alLookup sysAfterCreateC8.records cid = some r → recordOK r) ∧
     (∀ cid r r', alLookup sysInitC8.records cid = some r →
        alLookup sysAfterCreateC8.records cid = some r' →
        r.settlement.isSettled = true → r'.settlement.isSettled = true)) :=
  ⟨⟨ReachableSys.init, SysStep.create sysInitC8 "0xabc" "Q" "100" trC8 100 168 rfl rfl⟩,
   record_settlement_invariant sysInitC8 sysAfterCreateC8 ReachableSys.init
     (SysStep.create sysInitC8 "0xabc" "Q" "100" trC8 100 168 rfl rfl)⟩

/-- Claim C5 (amended): the registry save is a single direct in-place
write of the serialised index, so it is not crash-atomic — every prefix
of the new content is a crash-reachable state of `registry.json`;
whereas the save discipline the specification demands (write to a
temporary path, then atomically rename over the index) only ever
exposes the old content or the complete new content at the index
path. -/
theorem save_not_atomic (fs : FS) (reg : Registry) (k : Nat)
    (hk : k ≤ (stringifyRegistry reg).length) :
    alSet fs registryPath ((stringifyRegistry reg).take k) ∈
      crashStates fs (saveRegistryOps reg) ∧
    (∀ st ∈ crashStates fs (atomicSaveOpsSpec reg),
      alLookup st registryPath = alLookup fs registryPath ∨
      alLookup st registryPath = some (stringifyRegistry reg)) := by
  constructor
  · exact take_mem_crashStates fs registryPath _ k [] hk
  · intro st hst
    have hne : registryPath ≠ registryTmpPath := by decide
    simp only [atomicSaveOpsSpec, crashStates, duringOp, applyFsOp,
      alLookup_alSet_same, List.mem_append, List.mem_cons, List.mem_map,
      List.mem_range, List.not_mem_nil, or_false] at hst
    rcases hst with (hst | ⟨k', _, hst⟩) | (hst | hst) | hst
    · subst hst
      exact Or.inl rfl
    · rw [← hst]
      exact Or.inl (alLookup_alSet_other _ _ _ _ hne)
    · subst hst
      exact Or.inl (alLookup_alSet_other _ _ _ _ hne)
    · subst hst
      exact Or.inr (alLookup_alSet_same _ _ _)
    · subst hst
      exact Or.inr (alLookup_alSet_same _ _ _)

set_option maxRecDepth 8000 in
/-- Witness for `save_not_atomic` at a concrete file system holding an
empty index being overwritten with a one-market index, crashed five
characters in. -/
theorem save_not_atomic_witness :
    5 ≤ (stringifyRegistry regC5new).length ∧
    (alSet fsC5 registryPath ((stringifyRegistry regC5new).take 5) ∈
       crashStates fsC5 (saveRegistryOps regC5new) ∧
     (∀ st ∈ crashStates fsC5 (atomicSaveOpsSpec regC5new),
       alLookup st registryPath = alLookup fsC5 registryPath ∨
       alLookup st registryPath = some (stringifyRegistry regC5new))) :=
  ⟨by decide, save_not_atomic fsC5 regC5new 5 (by decide)⟩

set_option maxRecDepth 8000 in
/-- Claim C5 counterexample: with the code's direct in-place write, a
crash mid-write leaves `registry.json` holding a strict prefix of the
new JSON — content that is neither the old index nor the new index, a
partially-written index file. -/
theorem save_crash_leaves_truncated_file :
    alSet fsC5 registryPath ((stringifyRegistry regC5new).take 5) ∈
      crashStates fsC5 (saveRegistryOps regC5new) ∧
    alLookup (alSet fsC5 registryPath ((stringifyRegistry regC5new).take 5)) registryPath ≠
      some (stringifyRegistry regC5old) ∧
    alLookup (alSet fsC5 registryPath ((stringifyRegistry regC5new).take 5)) registryPath ≠
      some (stringifyRegistry regC5new) :=
  ⟨take_mem_crashStates fsC5 registryPath _ 5 [] (by decide), by decide, by decide⟩
